import Mathlib

/-!
Verification of the HIPAA masking service (`hipaa_masking_service.py`).

Text is embedded as `List Char` (one entry per Unicode code point, matching
Python `str` indexing and slicing).  Confidence scores are embedded as `ℚ`.
The Presidio analysis and anonymization engines are third-party code that is
not part of this repository's sources; where their behaviour decides a claim
they are modelled from the specification (each such definition carries a
`Modelled from the spec:` doc comment).  Everything else is translated
directly from `hipaa_masking_service.py`.
-/

namespace Hipaa

/-- A Python exception, reduced to the data the service ever inspects:
its type name (`type(e).__name__`) and its message. -/
structure PyErr where
  typeName : String
  message : String
deriving DecidableEq, Repr

/-- An analyzer result (a detection): entity type, `[start, stop)` span in the
original text, and the recognizer's confidence score.  Mirrors the fields of
Presidio's `RecognizerResult` that `deidentify` reads (`entity_type`, `start`,
`end`, `score`); Python's `end` is named `stop` because `end` is a Lean
keyword. -/
structure Detection where
  entity_type : String
  start : Nat
  stop : Nat
  score : ℚ
deriving DecidableEq, Repr

/-- `DeidentifiedEntity` from the source: a single piece of found PHI. -/
structure DeidentifiedEntity where
  text : List Char
  entity_type : String
  start : Nat
  stop : Nat
  score : ℚ
deriving DecidableEq, Repr

/-- `DeidentificationResult` from the source: the structured output of the
de-identification process. -/
structure DeidentificationResult where
  masked_text : List Char
  entities_found : List DeidentifiedEntity
deriving DecidableEq, Repr

/-- Python slice `t[a:b]` on a sequence of code points (for `0 ≤ a, b`):
`take` then `drop`, clamping out-of-range bounds exactly as Python does. -/
def sliceCh (t : List Char) (a b : Nat) : List Char := (t.take b).drop a

/-- The operator table of `HIPAAMaskingService._build_operators`, in source
order, with each `OperatorConfig("replace", {"new_value": v})` reduced to its
replacement string `v`. -/
def build_operators : List (String × String) :=
  [ ("DEFAULT", "<PHI>"),
    ("PERSON", "<PERSON>"),
    ("PHONE_NUMBER", "<PHONE>"),
    ("EMAIL_ADDRESS", "<EMAIL>"),
    ("US_SSN", "<SSN>"),
    ("SSN", "<SSN>"),
    ("US_ITIN", "<ITIN>"),
    ("US_PASSPORT", "<PHI>"),
    ("DATE_TIME", "<DATE>"),
    ("LOCATION", "<LOCATION>"),
    ("MEDICAL_RECORD_NUMBER", "<MRN>"),
    ("ORGANIZATION", "<ORGANIZATION>"),
    ("URL", "<URL>"),
    ("CREDIT_CARD", "<CREDIT_CARD>"),
    ("ZIP_CODE", "<ZIP>"),
    ("VEHICLE_VIN", "<VIN>"),
    ("LICENSE_PLATE", "<LICENSE_PLATE>"),
    ("HEALTH_PLAN_ID", "<HPN>"),
    ("DEVICE_IDENTIFIER", "<DEVICE>") ]

/-- Modelled from the spec: the anonymizer resolves a detected entity type to
its replacement policy via the operator table, "falling back to
`operator_table[DEFAULT]` when no specific entry exists" (§4.5).  The final
`"<PHI>"` arm is unreachable for tables that contain the mandatory `DEFAULT`
entry. -/
def opLookup (ops : List (String × String)) (t : String) : String :=
  match ops.find? (fun p => p.1 == t) with
  | some p => p.2
  | none =>
    match ops.find? (fun p => p.1 == "DEFAULT") with
    | some p => p.2
    | none => "<PHI>"

/-- The input of `deidentify`, as Python hands it over: a `str`, `None`, or
some other object whose `str(...)` conversion either yields a string or
raises. -/
inductive PyInput where
  | pyStr (s : List Char)
  | pyNone
  | pyOther (conv : Except PyErr (List Char))
deriving Repr

/-- The service state `deidentify` reads: `self.analyzer.analyze` (specialised
to `language="en"`, `return_decision_process=False`), the anonymizer
`self.anonymizer.anonymize` (as a function of the operator table, the text and
the analyzer results), and `self.operators`. -/
structure Service where
  analyzeF : List Char → Except PyErr (List Detection)
  anonF : List (String × String) → List Char → List Detection → Except PyErr (List Char)
  operators : List (String × String)

/-- The `logger.warning` message emitted for non-string input. -/
def nonStringWarning : String := "De-identification called with non-string input."

/-- The `logger.error` message of the failure path: it interpolates only the
error's type name, never the input text. -/
def failLog (e : PyErr) : String :=
  "De-identification process failed. Error type: " ++ e.typeName

/-- The `logger.info` message when no entities were found. -/
def completeNoneLog : String := "De-identification complete: No entities found."

/-- The `logger.info` message when `n` entities were found. -/
def completeFoundLog (n : Nat) : String :=
  "De-identification complete: Found " ++ toString n ++ " entities."

/-- The sentinel masked text of the failure path. -/
def sentinel : List Char := "[PROCESSING FAILED]".toList

/-- The input-normalization prologue of `deidentify` (lines 366-368 of the
source): a non-`str` input draws a warning and is converted with `str(...)`
(`None` becoming `""`); this happens before, and outside of, the
`try`/`except` block.  Returns the normalized text (or the propagated
conversion error) together with the log records emitted so far. -/
def normalizeInput : PyInput → Except PyErr (List Char) × List String
  | PyInput.pyStr s => (Except.ok s, [])
  | PyInput.pyNone => (Except.ok [], [nonStringWarning])
  | PyInput.pyOther conv => (conv, [nonStringWarning])

/-- `HIPAAMaskingService.deidentify`, translated clause by clause from the
source: normalize the input, short-circuit on empty text, then inside the
`try` block run the analyzer, run the anonymizer, build `found_entities` by
slicing the original text at each result's offsets, and log completion; any
error raised inside the `try` block is logged by type name only and turned
into the `[PROCESSING FAILED]` sentinel result.  The second component is the
list of log records the call emits. -/
def deidentify (svc : Service) (input : PyInput) :
    Except PyErr DeidentificationResult × List String :=
  match normalizeInput input with
  | (Except.error e, logs) => (Except.error e, logs)
  | (Except.ok text, logs) =>
    if text = [] then
      (Except.ok { masked_text := [], entities_found := [] }, logs)
    else
      match svc.analyzeF text with
      | Except.error e =>
        (Except.ok { masked_text := sentinel, entities_found := [] }, logs ++ [failLog e])
      | Except.ok analyzer_results =>
        match svc.anonF svc.operators text analyzer_results with
        | Except.error e =>
          (Except.ok { masked_text := sentinel, entities_found := [] }, logs ++ [failLog e])
        | Except.ok masked =>
          let found_entities := analyzer_results.map (fun r =>
            { text := sliceCh text r.start r.stop,
              entity_type := r.entity_type,
              start := r.start,
              stop := r.stop,
              score := r.score : DeidentifiedEntity })
          (Except.ok { masked_text := masked, entities_found := found_entities },
           logs ++ [if found_entities.isEmpty then completeNoneLog
                    else completeFoundLog found_entities.length])

/-- One `deidentify` call as a transition on the service state: the method
reads `self.analyzer`, `self.anonymizer` and `self.operators` but assigns to
none of them, so the state after the call is the state before it. -/
def deidentifyCall (svc : Service) (input : PyInput) :
    Service × (Except PyErr DeidentificationResult × List String) :=
  (svc, deidentify svc input)

/-- A service whose analysis step always raises, used to witness the failure
path. -/
def failingService : Service :=
  { analyzeF := fun _ => Except.error { typeName := "ValueError", message := "boom" },
    anonF := fun _ _ _ => Except.ok [],
    operators := build_operators }

/-- Length of a detection's span. -/
def spanLen (d : Detection) : Nat := d.stop - d.start

/-- Modelled from the spec: the priority order of overlap resolution (§4.4
step 2, inside Presidio's analysis engine, which is not part of this
repository's sources) — descending score, then descending span length, then
ascending start offset.  `priLe a b` says `a` sorts no later than `b`. -/
def priLe (a b : Detection) : Prop :=
  b.score < a.score ∨
    (a.score = b.score ∧
      (spanLen b < spanLen a ∨ (spanLen a = spanLen b ∧ a.start ≤ b.start)))

instance : DecidableRel priLe := fun a b => by
  unfold priLe; infer_instance

instance : IsTotal Detection priLe :=
  ⟨by
    intro a b
    unfold priLe
    rcases lt_trichotomy a.score b.score with h | h | h
    · exact Or.inr (Or.inl h)
    · rcases lt_trichotomy (spanLen a) (spanLen b) with h2 | h2 | h2
      · exact Or.inr (Or.inr ⟨h.symm, Or.inl h2⟩)
      · rcases Nat.le_total a.start b.start with h3 | h3
        · exact Or.inl (Or.inr ⟨h, Or.inr ⟨h2, h3⟩⟩)
        · exact Or.inr (Or.inr ⟨h.symm, Or.inr ⟨h2.symm, h3⟩⟩)
      · exact Or.inl (Or.inr ⟨h, Or.inl h2⟩)
    · exact Or.inl (Or.inl h)⟩

instance : IsTrans Detection priLe :=
  ⟨by
    intro a b c hab hbc
    unfold priLe at *
    rcases hab with h1 | ⟨e1, h1⟩ <;> rcases hbc with h2 | ⟨e2, h2⟩
    · exact Or.inl (lt_trans h2 h1)
    · exact Or.inl (by rw [← e2]; exact h1)
    · exact Or.inl (by rw [e1]; exact h2)
    · refine Or.inr ⟨e1.trans e2, ?_⟩
      rcases h1 with s1 | ⟨l1, st1⟩ <;> rcases h2 with s2 | ⟨l2, st2⟩
      · exact Or.inl (Nat.lt_trans s2 s1)
      · exact Or.inl (by rw [← l2]; exact s1)
      · exact Or.inl (by rw [l1]; exact s2)
      · exact Or.inr ⟨l1.trans l2, Nat.le_trans st1 st2⟩⟩

/-- The presentation order of the final detection set: ascending start offset
(§4.4 step 3). -/
def startLe (a b : Detection) : Prop := a.start ≤ b.start

instance : DecidableRel startLe := fun a b =>
  inferInstanceAs (Decidable (a.start ≤ b.start))

instance : IsTotal Detection startLe := ⟨fun a b => Nat.le_total a.start b.start⟩

instance : IsTrans Detection startLe := ⟨fun _ _ _ => Nat.le_trans⟩

/-- Two detections overlap when their `[start, stop)` intervals share a
character position. -/
def overlapsB (a b : Detection) : Bool :=
  decide (a.start < b.stop) && decide (b.start < a.stop)

/-- Detections `a` and `b` do not overlap. -/
def NonOv (a b : Detection) : Prop := overlapsB a b = false

/-- Modelled from the spec: the greedy walk of §4.4 step 2 — accept each
detection of the priority-sorted list only if it overlaps no already-accepted
detection. -/
def greedyResolve (accepted : List Detection) : List Detection → List Detection
  | [] => accepted
  | d :: rest =>
    if accepted.any (fun a => overlapsB a d) then greedyResolve accepted rest
    else greedyResolve (accepted ++ [d]) rest

/-- Modelled from the spec: overlap resolution of the analysis engine (§4.4):
sort all raw detections by priority, greedily accept non-overlapping ones,
then re-sort the accepted set by ascending start for presentation. -/
def resolveOverlaps (raw : List Detection) : List Detection :=
  List.insertionSort startLe (greedyResolve [] (List.insertionSort priLe raw))

/-- Modelled from the spec: the analysis engine as `deidentify` sees it — run
every registered recognizer over the text (the opaque `rawF`, covering the
statistical model and all pattern recognizers) and resolve overlaps (§4.4).
-/
def analyzeEngine (rawF : List Char → Except PyErr (List Detection))
    (text : List Char) : Except PyErr (List Detection) :=
  (rawF text).map resolveOverlaps

/-- Replacement placeholder for a detection, resolved through the operator
table. -/
def placeholderFor (ops : List (String × String)) (d : Detection) : List Char :=
  (opLookup ops d.entity_type).toList

/-- Modelled from the spec: the anonymization rewrite of §4.5 as one
left-to-right splice over original-text offsets, alternating verbatim
original segments (`Sum.inl`) with inserted placeholders (`Sum.inr`). -/
def maskSegments (ops : List (String × String)) (text : List Char) :
    Nat → List Detection → List (List Char ⊕ List Char)
  | pos, [] => [Sum.inl (text.drop pos)]
  | pos, d :: rest =>
    Sum.inl (sliceCh text pos d.start) :: Sum.inr (placeholderFor ops d) ::
      maskSegments ops text d.stop rest

/-- Concatenate the splice segments into the masked text. -/
def renderSegs (segs : List (List Char ⊕ List Char)) : List Char :=
  (segs.map (Sum.elim id id)).flatten

/-- Modelled from the spec: `anonymize(text, detections, operator_table)` of
the anonymization engine (§4.5). -/
def anonymize (ops : List (String × String)) (text : List Char)
    (dets : List Detection) : List Char :=
  renderSegs (maskSegments ops text 0 dets)

/-- The verbatim original segments of a splice, concatenated in order. -/
def gapsOf (segs : List (List Char ⊕ List Char)) : List Char :=
  (segs.filterMap Sum.getLeft?).flatten

/-- Does some detection of the list cover position `i`? -/
def coveredBy : List Detection → Nat → Bool
  | [], _ => false
  | d :: rest, i => (decide (d.start ≤ i) && decide (i < d.stop)) || coveredBy rest i

/-- The characters of `text` at positions `≥ pos` that no detection covers,
in original order. -/
def uncoveredFrom (text : List Char) (pos : Nat) (dets : List Detection) : List Char :=
  ((text.enum).filter (fun p => decide (pos ≤ p.1) && !(coveredBy dets p.1))).map Prod.snd

/-- A start-ascending, pairwise non-overlapping detection sequence whose spans
are well-formed and start at or after `pos`. -/
def ChainValid : Nat → List Detection → Prop
  | _, [] => True
  | pos, d :: rest => pos ≤ d.start ∧ d.start ≤ d.stop ∧ ChainValid d.stop rest

/-- The service as `HIPAAMaskingService.__init__` wires it: the spec-modelled
analysis engine over the opaque union `rawF` of recognizer outputs, the
spec-modelled anonymizer, and the source's operator table. -/
def mkService (rawF : List Char → Except PyErr (List Detection)) : Service :=
  { analyzeF := analyzeEngine rawF,
    anonF := fun ops text dets => Except.ok (anonymize ops text dets),
    operators := build_operators }

/-- A recognizer, reduced to the only datum the construction code inspects:
its registry name. -/
structure Recognizer where
  name : String
deriving DecidableEq, Repr

/-- The module-level `DEFAULT_HIPAA_RECOGNIZERS` list, by recognizer name, in
source order (the two custom factories and the six Presidio classes). -/
def DEFAULT_HIPAA_RECOGNIZERS : List Recognizer :=
  [ { name := "High Score SSN Recognizer" },
    { name := "High Score Passport Recognizer" },
    { name := "PhoneRecognizer" },
    { name := "EmailRecognizer" },
    { name := "UsLicenseRecognizer" },
    { name := "IpRecognizer" },
    { name := "UrlRecognizer" },
    { name := "CreditCardRecognizer" } ]

/-- Modelled from the spec: `RecognizerRegistry.remove_recognizer` (Presidio
code, not in this repository's sources) removes a recognizer by name (§4.3);
this variant raises on an absent name, the worst case the source's
`try`/`except` guards against (§9: removal is best-effort). -/
def remove_recognizer (reg : List Recognizer) (nm : String) :
    Except PyErr (List Recognizer) :=
  if reg.any (fun r => r.name == nm) then
    Except.ok (reg.filter (fun r => !(r.name == nm)))
  else
    Except.error { typeName := "ValueError", message := nm }

/-- The inner `try`/`except` of `_build_analyzer` (source lines 293-304):
remove the three default recognizers in order; a failure is caught (a warning
is logged), leaving the registry as mutated so far, and construction
continues. -/
def tryRemoveDefaults
    (removeF : List Recognizer → String → Except PyErr (List Recognizer))
    (reg : List Recognizer) : List Recognizer :=
  match removeF reg "UsSsnRecognizer" with
  | Except.error _ => reg
  | Except.ok r1 =>
    match removeF r1 "UsItinRecognizer" with
    | Except.error _ => r1
    | Except.ok r2 =>
      match removeF r2 "UsPassportRecognizer" with
      | Except.error _ => r2
      | Except.ok r3 => r3

/-- `HIPAAMaskingService._build_analyzer`: load the predefined recognizers
(the opaque `loadPredefined`; its failure propagates through the outer `try`'s
re-`raise`), best-effort remove the three defaults, then add
`DEFAULT_HIPAA_RECOGNIZERS` and the caller's additional recognizers, in that
order. -/
def build_analyzer (loadPredefined : Except PyErr (List Recognizer))
    (removeF : List Recognizer → String → Except PyErr (List Recognizer))
    (additional : List Recognizer) : Except PyErr (List Recognizer) :=
  match loadPredefined with
  | Except.error e => Except.error e
  | Except.ok pre =>
    Except.ok (tryRemoveDefaults removeF pre ++ DEFAULT_HIPAA_RECOGNIZERS ++ additional)

/-- A concrete high-score SSN detection for witnesses. -/
def ssnDet : Detection :=
  { entity_type := "US_SSN", start := 0, stop := 4, score := mkRat 9 10 }

/-- A concrete lower-score date detection overlapping `ssnDet`. -/
def dateDet : Detection :=
  { entity_type := "DATE_TIME", start := 2, stop := 6, score := mkRat 6 10 }

/-- Concrete raw detections for witnesses: a high-score SSN span overlapping a
lower-score date span. -/
def rawOverlapping : List Detection := [ssnDet, dateDet]

/-- Concrete raw detections for witnesses: one SSN span. -/
def rawSingle : List Detection :=
  [ { entity_type := "US_SSN", start := 1, stop := 3, score := mkRat 9 10 } ]

/-- A service whose recognizers always report `rawSingle`. -/
def singleService : Service := mkService (fun _ => Except.ok rawSingle)

/-- The result `deidentify` computes for `rawOverlapping` on `"abcdefgh"`. -/
def resOverlapW : DeidentificationResult :=
  { masked_text := "<SSN>efgh".toList,
    entities_found :=
      [ { text := "abcd".toList, entity_type := "US_SSN", start := 0, stop := 4,
          score := mkRat 9 10 } ] }

/-- The result `deidentify` computes for `rawSingle` on `"abcdef"`. -/
def resSingleW : DeidentificationResult :=
  { masked_text := "a<SSN>def".toList,
    entities_found :=
      [ { text := "bc".toList, entity_type := "US_SSN", start := 1, stop := 3,
          score := mkRat 9 10 } ] }

/-- A concrete predefined-recognizer registry for witnesses, containing the
three default recognizers that construction removes. -/
def preLoaded : List Recognizer :=
  [ { name := "SpacyRecognizer" },
    { name := "UsSsnRecognizer" },
    { name := "UsItinRecognizer" },
    { name := "UsPassportRecognizer" },
    { name := "DateRecognizer" } ]

end Hipaa

namespace Hipaa

/-- C1: on any nonempty text, if the analysis step errors, or analysis
succeeds and the anonymization step errors, then `deidentify` returns exactly
the sentinel result (`masked_text = "[PROCESSING FAILED]"`, no entities) and
emits exactly one diagnostic record, which is built from the error's type name
alone. -/
theorem C1_failure_path_sentinel (svc : Service) (text : List Char) (e : PyErr)
    (hne : text ≠ [])
    (herr : svc.analyzeF text = Except.error e ∨
      ∃ dets, svc.analyzeF text = Except.ok dets ∧
        svc.anonF svc.operators text dets = Except.error e) :
    deidentify svc (PyInput.pyStr text) =
      (Except.ok { masked_text := sentinel, entities_found := [] }, [failLog e]) ∧
    failLog e = "De-identification process failed. Error type: " ++ e.typeName := by
  constructor
  · rcases herr with h | ⟨dets, h1, h2⟩
    · simp [deidentify, normalizeInput, hne, h]
    · simp [deidentify, normalizeInput, hne, h1, h2]
  · rfl

/-- C1 witness: a concrete service whose analyzer raises `ValueError` on the
concrete text `"abc"`. -/
theorem C1_failure_path_sentinel_witness :
    (("abc".toList : List Char) ≠ [] ∧
      failingService.analyzeF "abc".toList =
        Except.error { typeName := "ValueError", message := "boom" }) ∧
    deidentify failingService (PyInput.pyStr "abc".toList) =
      (Except.ok { masked_text := sentinel, entities_found := [] },
       [failLog { typeName := "ValueError", message := "boom" }]) :=
  ⟨⟨by decide, rfl⟩,
   (C1_failure_path_sentinel failingService "abc".toList
      { typeName := "ValueError", message := "boom" } (by decide) (Or.inl rfl)).1⟩

/-- C6: the empty string short-circuits to the empty result with no engine
involved (the result is the same for every service, so neither engine can have
been consulted); `None` is treated as the empty string and yields the same
empty result; any other non-string input whose conversion succeeds is
processed exactly as its textual representation would be. -/
theorem C6_empty_none_nonstring :
    (∀ svc : Service,
      deidentify svc (PyInput.pyStr []) =
        (Except.ok { masked_text := [], entities_found := [] }, [])) ∧
    (∀ svc : Service,
      deidentify svc PyInput.pyNone =
        (Except.ok { masked_text := [], entities_found := [] }, [nonStringWarning])) ∧
    (∀ (svc : Service) (s : List Char),
      deidentify svc (PyInput.pyOther (Except.ok s)) =
        ((deidentify svc (PyInput.pyStr s)).1,
         nonStringWarning :: (deidentify svc (PyInput.pyStr s)).2)) := by
  refine ⟨fun svc => rfl, fun svc => rfl, fun svc s => ?_⟩
  by_cases hs : s = []
  · subst hs; rfl
  · simp only [deidentify, normalizeInput, if_neg hs]
    cases h : svc.analyzeF s with
    | error e => simp [h]
    | ok dets =>
      cases h2 : svc.anonF svc.operators s dets with
      | error e => simp [h, h2]
      | ok masked => simp [h, h2]

/-- C9: `deidentify` mutates no service state, so a second call with the same
text on the (unchanged) service instance returns the identical result. -/
theorem C9_deterministic (svc : Service) (input : PyInput) :
    (deidentifyCall svc input).1 = svc ∧
    (deidentifyCall ((deidentifyCall svc input).1) input).2 =
      (deidentifyCall svc input).2 :=
  ⟨rfl, rfl⟩

/-- C10: input normalization runs outside the `try`/`except` scope: a
non-string input whose `str(...)` conversion raises propagates that error to
the caller (no sentinel), while every input that normalizes successfully
yields an `ok` result — errors are converted to the sentinel only after
normalization. -/
theorem C10_conversion_error_propagates :
    (∀ (svc : Service) (e : PyErr),
      deidentify svc (PyInput.pyOther (Except.error e)) =
        (Except.error e, [nonStringWarning])) ∧
    (∀ (svc : Service) (input : PyInput) (t : List Char),
      (normalizeInput input).1 = Except.ok t →
        ((deidentify svc input).1).isOk = true) := by
  refine ⟨fun svc e => rfl, fun svc input t hnorm => ?_⟩
  have step : ∀ (s : List Char), ((deidentify svc (PyInput.pyStr s)).1).isOk = true := by
    intro s
    by_cases hs : s = []
    · subst hs; rfl
    · simp only [deidentify, normalizeInput, if_neg hs]
      cases h : svc.analyzeF s with
      | error e => simp [h, Except.isOk, Except.toBool]
      | ok dets =>
        cases h2 : svc.anonF svc.operators s dets with
        | error e => simp [h, h2, Except.isOk, Except.toBool]
        | ok masked => simp [h, h2, Except.isOk, Except.toBool]
  cases input with
  | pyStr s => exact step s
  | pyNone => rfl
  | pyOther conv =>
    cases conv with
    | error e => simp [normalizeInput] at hnorm
    | ok s =>
      have h := (C6_empty_none_nonstring.2.2 svc s)
      have : (deidentify svc (PyInput.pyOther (Except.ok s))).1 =
          (deidentify svc (PyInput.pyStr s)).1 := by rw [h]
      rw [this]; exact step s

/-- C10 witness: normalization of the concrete string input `"x"` succeeds,
and the call on the failing service still returns an `ok` (sentinel) result.
-/
theorem C10_conversion_error_propagates_witness :
    (normalizeInput (PyInput.pyStr "x".toList)).1 = Except.ok "x".toList ∧
    ((deidentify failingService (PyInput.pyStr "x".toList)).1).isOk = true :=
  ⟨rfl, C10_conversion_error_propagates.2 failingService (PyInput.pyStr "x".toList)
    "x".toList rfl⟩

/-- C7: the operator table maps each listed entity type to its listed constant
placeholder, contains the mandatory `DEFAULT` entry `<PHI>`, and every entity
type without a specific entry resolves to `<PHI>`. -/
theorem C7_operator_table :
    (∀ t : String, (∀ p ∈ build_operators, p.1 ≠ t) →
      opLookup build_operators t = "<PHI>") ∧
    ("DEFAULT", "<PHI>") ∈ build_operators ∧
    opLookup build_operators "PERSON" = "<PERSON>" ∧
    opLookup build_operators "PHONE_NUMBER" = "<PHONE>" ∧
    opLookup build_operators "EMAIL_ADDRESS" = "<EMAIL>" ∧
    opLookup build_operators "US_SSN" = "<SSN>" ∧
    opLookup build_operators "SSN" = "<SSN>" ∧
    opLookup build_operators "US_ITIN" = "<ITIN>" ∧
    opLookup build_operators "US_PASSPORT" = "<PHI>" ∧
    opLookup build_operators "DATE_TIME" = "<DATE>" ∧
    opLookup build_operators "LOCATION" = "<LOCATION>" ∧
    opLookup build_operators "MEDICAL_RECORD_NUMBER" = "<MRN>" ∧
    opLookup build_operators "ORGANIZATION" = "<ORGANIZATION>" ∧
    opLookup build_operators "URL" = "<URL>" ∧
    opLookup build_operators "CREDIT_CARD" = "<CREDIT_CARD>" ∧
    opLookup build_operators "ZIP_CODE" = "<ZIP>" ∧
    opLookup build_operators "VEHICLE_VIN" = "<VIN>" ∧
    opLookup build_operators "LICENSE_PLATE" = "<LICENSE_PLATE>" ∧
    opLookup build_operators "HEALTH_PLAN_ID" = "<HPN>" ∧
    opLookup build_operators "DEVICE_IDENTIFIER" = "<DEVICE>" ∧
    opLookup build_operators "DEFAULT" = "<PHI>" := by
  refine ⟨?_, by decide⟩
  intro t h
  have hfind : build_operators.find? (fun p => p.1 == t) = none := by
    apply List.find?_eq_none.mpr
    intro p hp
    simpa using h p hp
  simp only [opLookup, hfind]
  rfl

/-- C7 witness: an entity type absent from the table resolves to the
`DEFAULT` placeholder `<PHI>`. -/
theorem C7_operator_table_witness :
    opLookup build_operators "LAB_RESULT" = "<PHI>" :=
  C7_operator_table.1 "LAB_RESULT" (by decide)

end Hipaa

namespace Hipaa

theorem overlapsB_symm (a b : Detection) : overlapsB a b = overlapsB b a := by
  unfold overlapsB
  by_cases h1 : a.start < b.stop <;> by_cases h2 : b.start < a.stop <;> simp [h1, h2]

theorem nonOv_symm {a b : Detection} (h : NonOv a b) : NonOv b a := by
  unfold NonOv at *
  rw [overlapsB_symm]
  exact h

theorem mem_greedyResolve : ∀ (l acc : List Detection) (x : Detection),
    x ∈ greedyResolve acc l → x ∈ acc ∨ x ∈ l
  | [], _, _, h => Or.inl h
  | d :: rest, acc, x, h => by
    rw [greedyResolve] at h
    split at h
    · rcases mem_greedyResolve rest acc x h with h1 | h1
      · exact Or.inl h1
      · exact Or.inr (List.mem_cons_of_mem d h1)
    · rcases mem_greedyResolve rest (acc ++ [d]) x h with h1 | h1
      · rcases List.mem_append.mp h1 with h2 | h2
        · exact Or.inl h2
        · have hx : x = d := by simpa using h2
          exact Or.inr (hx ▸ List.mem_cons_self d rest)
      · exact Or.inr (List.mem_cons_of_mem d h1)

theorem mem_greedyResolve_of_acc : ∀ (l acc : List Detection) (x : Detection),
    x ∈ acc → x ∈ greedyResolve acc l
  | [], _, _, h => h
  | d :: rest, acc, x, h => by
    rw [greedyResolve]
    split
    · exact mem_greedyResolve_of_acc rest acc x h
    · exact mem_greedyResolve_of_acc rest (acc ++ [d]) x (List.mem_append_left _ h)

theorem greedyResolve_pairwise : ∀ (l acc : List Detection),
    List.Pairwise NonOv acc → List.Pairwise NonOv (greedyResolve acc l)
  | [], _, h => h
  | d :: rest, acc, h => by
    rw [greedyResolve]
    split
    · exact greedyResolve_pairwise rest acc h
    · next hc =>
      refine greedyResolve_pairwise rest (acc ++ [d]) ?_
      rw [List.pairwise_append]
      refine ⟨h, by simp, ?_⟩
      intro a ha b hb
      have hb' : b = d := by simpa using hb
      subst hb'
      have hall := List.any_eq_false.mp (Bool.eq_false_iff.mpr hc)
      have := hall a ha
      unfold NonOv
      rcases Bool.eq_false_or_eq_true (overlapsB a b) with htb | hfb
      · exact absurd htb this
      · exact hfb

theorem greedyResolve_target : ∀ (l acc : List Detection) (d : Detection),
    List.Pairwise priLe l → d ∈ l →
    (∀ a ∈ acc, overlapsB a d = false) →
    (∀ x ∈ l, overlapsB x d = true → x = d ∨ x.score < d.score) →
    d ∈ greedyResolve acc l
  | [], _, d, _, hd, _, _ => absurd hd (List.not_mem_nil d)
  | d0 :: rest, acc, d, hp, hd, hacc, hbest => by
    rw [List.pairwise_cons] at hp
    obtain ⟨hd0rest, hprest⟩ := hp
    rw [greedyResolve]
    by_cases heq : d0 = d
    · subst heq
      split
      · next hcond =>
        obtain ⟨a, ha, hov⟩ := List.any_eq_true.mp hcond
        rw [hacc a ha] at hov
        exact absurd hov (by simp)
      · exact mem_greedyResolve_of_acc rest (acc ++ [d0]) d0
          (List.mem_append_right _ (by simp))
    · have hd' : d ∈ rest := by
        rcases List.mem_cons.mp hd with h | h
        · exact absurd h.symm heq
        · exact h
      split
      · exact greedyResolve_target rest acc d hprest hd' hacc
          (fun x hx hov => hbest x (List.mem_cons_of_mem _ hx) hov)
      · have hnd : overlapsB d0 d = false := by
          rcases Bool.eq_false_or_eq_true (overlapsB d0 d) with ht | hf
          · rcases hbest d0 (List.mem_cons_self _ _) ht with h | h
            · exact absurd h heq
            · have hpri := hd0rest d hd'
              unfold priLe at hpri
              rcases hpri with hlt | ⟨heqs, _⟩
              · exact absurd hlt (not_lt_of_lt h)
              · rw [heqs] at h
                exact absurd h (lt_irrefl _)
          · exact hf
        exact greedyResolve_target rest (acc ++ [d0]) d hprest hd'
          (fun a ha => by
            rcases List.mem_append.mp ha with h | h
            · exact hacc a h
            · have ha' : a = d0 := by simpa using h
              subst ha'
              exact hnd)
          (fun x hx hov => hbest x (List.mem_cons_of_mem _ hx) hov)

theorem resolveOverlaps_subset (raw : List Detection) :
    ∀ x ∈ resolveOverlaps raw, x ∈ raw := by
  intro x hx
  unfold resolveOverlaps at hx
  have hx1 := (List.perm_insertionSort startLe _).subset hx
  rcases mem_greedyResolve _ [] x hx1 with h | h
  · exact absurd h (List.not_mem_nil x)
  · exact (List.perm_insertionSort priLe raw).subset h

theorem resolveOverlaps_nonoverlap (raw : List Detection) :
    List.Pairwise NonOv (resolveOverlaps raw) := by
  have hg : List.Pairwise NonOv (greedyResolve [] (List.insertionSort priLe raw)) :=
    greedyResolve_pairwise _ [] List.Pairwise.nil
  have hperm : (resolveOverlaps raw).Perm
      (greedyResolve [] (List.insertionSort priLe raw)) :=
    List.perm_insertionSort startLe _
  exact (hperm.pairwise_iff (fun h => nonOv_symm h)).mpr hg

theorem resolveOverlaps_sortedStart (raw : List Detection) :
    List.Pairwise startLe (resolveOverlaps raw) :=
  List.sorted_insertionSort startLe _

theorem resolveOverlaps_chain (raw : List Detection)
    (hv : ∀ d ∈ raw, d.start < d.stop) :
    List.Pairwise (fun a b => a.stop ≤ b.start) (resolveOverlaps raw) := by
  have hps := (resolveOverlaps_sortedStart raw).and (resolveOverlaps_nonoverlap raw)
  refine hps.imp_of_mem ?_
  intro a b ha hb hab
  obtain ⟨hle, hnov⟩ := hab
  have hva := hv a (resolveOverlaps_subset raw a ha)
  have hvb := hv b (resolveOverlaps_subset raw b hb)
  unfold startLe at hle
  have hnov' : ¬(a.start < b.stop ∧ b.start < a.stop) := by
    simpa [NonOv, overlapsB] using hnov
  omega

end Hipaa

namespace Hipaa

theorem deidentify_mkService_ok
    (rawF : List Char → Except PyErr (List Detection)) (text : List Char)
    (raw : List Detection) (hraw : rawF text = Except.ok raw)
    (htext : text ≠ []) :
    (deidentify (mkService rawF) (PyInput.pyStr text)).1 =
      Except.ok
        { masked_text := anonymize build_operators text (resolveOverlaps raw),
          entities_found := (resolveOverlaps raw).map (fun r =>
            { text := sliceCh text r.start r.stop,
              entity_type := r.entity_type,
              start := r.start,
              stop := r.stop,
              score := r.score }) } := by
  have hana : (mkService rawF).analyzeF text = Except.ok (resolveOverlaps raw) := by
    show analyzeEngine rawF text = _
    unfold analyzeEngine
    rw [hraw]
    rfl
  simp only [deidentify, normalizeInput, if_neg htext]
  rw [hana]
  rfl

theorem deidentify_mkService_err
    (rawF : List Char → Except PyErr (List Detection)) (text : List Char)
    (e : PyErr) (hraw : rawF text = Except.error e) (htext : text ≠ []) :
    (deidentify (mkService rawF) (PyInput.pyStr text)).1 =
      Except.ok { masked_text := sentinel, entities_found := [] } := by
  have hana : (mkService rawF).analyzeF text = Except.error e := by
    show analyzeEngine rawF text = _
    unfold analyzeEngine
    rw [hraw]
    rfl
  simp only [deidentify, normalizeInput, if_neg htext]
  rw [hana]

/-- C2: for every input text and every raw recognizer output with well-formed
spans, the `entities_found` sequence returned by `deidentify` is pairwise
non-overlapping (each entry's `stop` is at most any later entry's `start`) and
sorted ascending by start offset. -/
theorem C2_entities_nonoverlapping_sorted
    (rawF : List Char → Except PyErr (List Detection)) (text : List Char)
    (raw : List Detection) (res : DeidentificationResult)
    (hraw : rawF text = Except.ok raw)
    (hv : ∀ d ∈ raw, d.start < d.stop)
    (hres : (deidentify (mkService rawF) (PyInput.pyStr text)).1 = Except.ok res) :
    List.Pairwise (fun a b : DeidentifiedEntity => a.stop ≤ b.start)
      res.entities_found ∧
    List.Pairwise (fun a b : DeidentifiedEntity => a.start ≤ b.start)
      res.entities_found := by
  by_cases htext : text = []
  · subst htext
    have hd : (Except.ok ({ masked_text := [], entities_found := [] } :
        DeidentificationResult) : Except PyErr DeidentificationResult) =
        Except.ok res := by
      rw [← hres]
      rfl
    obtain rfl := ((Except.ok.injEq _ _).mp hd).symm
    exact ⟨List.Pairwise.nil, List.Pairwise.nil⟩
  · rw [deidentify_mkService_ok rawF text raw hraw htext] at hres
    obtain rfl := (Except.ok.injEq _ _).mp hres
    constructor
    · exact List.pairwise_map.mpr ((resolveOverlaps_chain raw hv).imp (fun h => h))
    · exact List.pairwise_map.mpr
        ((resolveOverlaps_sortedStart raw).imp (fun h => h))

/-- C2 witness: on the concrete overlapping raw detections of
`rawOverlapping`, the returned entities are non-overlapping and sorted. -/
theorem C2_entities_nonoverlapping_sorted_witness :
    ((fun _ : List Char => (Except.ok rawOverlapping : Except PyErr (List Detection)))
          "abcdefgh".toList = Except.ok rawOverlapping ∧
      (∀ d ∈ rawOverlapping, d.start < d.stop) ∧
      (deidentify (mkService (fun _ => Except.ok rawOverlapping))
          (PyInput.pyStr "abcdefgh".toList)).1 = Except.ok resOverlapW) ∧
    (List.Pairwise (fun a b : DeidentifiedEntity => a.stop ≤ b.start)
        resOverlapW.entities_found ∧
      List.Pairwise (fun a b : DeidentifiedEntity => a.start ≤ b.start)
        resOverlapW.entities_found) :=
  ⟨⟨rfl, by decide, by rfl⟩,
   C2_entities_nonoverlapping_sorted (fun _ => Except.ok rawOverlapping)
     "abcdefgh".toList rawOverlapping resOverlapW rfl (by decide) (by rfl)⟩

/-- C3: overlap resolution keeps any detection whose score strictly beats
every other raw detection overlapping it; in particular a span matched both by
a high-score custom pattern and a lower-score detector on an overlapping range
resolves to the higher-score detection, whose entity type is therefore in the
final set. -/
theorem C3_highest_score_wins (raw : List Detection) (d : Detection)
    (hd : d ∈ raw)
    (hbest : ∀ x ∈ raw, overlapsB x d = true → x = d ∨ x.score < d.score) :
    d ∈ resolveOverlaps raw := by
  have hperm := List.perm_insertionSort priLe raw
  have hsorted : List.Pairwise priLe (List.insertionSort priLe raw) :=
    List.sorted_insertionSort priLe raw
  have hmem : d ∈ List.insertionSort priLe raw := hperm.mem_iff.mpr hd
  have hg : d ∈ greedyResolve [] (List.insertionSort priLe raw) :=
    greedyResolve_target _ [] d hsorted hmem
      (fun a ha => absurd ha (List.not_mem_nil a))
      (fun x hx h => hbest x (hperm.subset hx) h)
  exact (List.perm_insertionSort startLe _).mem_iff.mpr hg

/-- C3 witness: the SSN detection at score 9/10 overlaps the date detection at
score 6/10 on `[2,4)` and survives resolution. -/
theorem C3_highest_score_wins_witness :
    (ssnDet ∈ rawOverlapping ∧
      (∀ x ∈ rawOverlapping, overlapsB x ssnDet = true →
        x = ssnDet ∨ x.score < ssnDet.score)) ∧
    ssnDet ∈ resolveOverlaps rawOverlapping :=
  ⟨⟨by decide, by decide⟩,
   C3_highest_score_wins rawOverlapping ssnDet (by decide) (by decide)⟩

/-- C4: every entry of `entities_found` carries exactly the slice of the
original, untouched input text between its own offsets. -/
theorem C4_span_fidelity
    (rawF : List Char → Except PyErr (List Detection)) (text : List Char)
    (res : DeidentificationResult)
    (hres : (deidentify (mkService rawF) (PyInput.pyStr text)).1 = Except.ok res) :
    ∀ ent ∈ res.entities_found, ent.text = sliceCh text ent.start ent.stop := by
  by_cases htext : text = []
  · subst htext
    have hd : (Except.ok ({ masked_text := [], entities_found := [] } :
        DeidentificationResult) : Except PyErr DeidentificationResult) =
        Except.ok res := by
      rw [← hres]
      rfl
    obtain rfl := ((Except.ok.injEq _ _).mp hd).symm
    intro ent hent
    exact absurd hent (List.not_mem_nil ent)
  · cases hraw : rawF text with
    | error e =>
      rw [deidentify_mkService_err rawF text e hraw htext] at hres
      obtain rfl := (Except.ok.injEq _ _).mp hres
      intro ent hent
      exact absurd hent (List.not_mem_nil ent)
    | ok raw =>
      rw [deidentify_mkService_ok rawF text raw hraw htext] at hres
      obtain rfl := (Except.ok.injEq _ _).mp hres
      intro ent hent
      obtain ⟨r, _, hr⟩ := List.mem_map.mp hent
      rw [← hr]

/-- C4 witness: on the concrete single-detection service the one entity's text
is the slice of the original text at its offsets. -/
theorem C4_span_fidelity_witness :
    (deidentify singleService (PyInput.pyStr "abcdef".toList)).1 =
      Except.ok resSingleW ∧
    (∀ ent ∈ resSingleW.entities_found,
      ent.text = sliceCh "abcdef".toList ent.start ent.stop) :=
  ⟨by rfl,
   C4_span_fidelity (fun _ => Except.ok rawSingle) "abcdef".toList resSingleW
     (by rfl)⟩

/-- C8: construction never fails because of recognizer removal — for every
behaviour of the removal primitive (including raising) `_build_analyzer`
still returns a registry — and with by-name removal semantics the three
default recognizers are removed from the predefined layer before the
high-score override recognizers (and the caller's extras) are appended. -/
theorem C8_removal_best_effort (pre add : List Recognizer)
    (h1 : ({ name := "UsSsnRecognizer" } : Recognizer) ∈ pre)
    (h2 : ({ name := "UsItinRecognizer" } : Recognizer) ∈ pre)
    (h3 : ({ name := "UsPassportRecognizer" } : Recognizer) ∈ pre) :
    (∀ removeF, (build_analyzer (Except.ok pre) removeF add).isOk = true) ∧
    build_analyzer (Except.ok pre) remove_recognizer add =
      Except.ok
        ((pre.filter (fun r => !(r.name == "UsSsnRecognizer" ||
            r.name == "UsItinRecognizer" || r.name == "UsPassportRecognizer")))
          ++ DEFAULT_HIPAA_RECOGNIZERS ++ add) := by
  constructor
  · intro removeF
    rfl
  · have hs1 : remove_recognizer pre "UsSsnRecognizer" =
        Except.ok (pre.filter (fun r => !(r.name == "UsSsnRecognizer"))) := by
      unfold remove_recognizer
      rw [if_pos]
      exact List.any_eq_true.mpr ⟨_, h1, by decide⟩
    have hm2 : ({ name := "UsItinRecognizer" } : Recognizer) ∈
        pre.filter (fun r => !(r.name == "UsSsnRecognizer")) :=
      List.mem_filter.mpr ⟨h2, by decide⟩
    have hs2 : remove_recognizer
        (pre.filter (fun r => !(r.name == "UsSsnRecognizer")))
        "UsItinRecognizer" =
        Except.ok ((pre.filter (fun r => !(r.name == "UsSsnRecognizer"))).filter
          (fun r => !(r.name == "UsItinRecognizer"))) := by
      unfold remove_recognizer
      rw [if_pos]
      exact List.any_eq_true.mpr ⟨_, hm2, by decide⟩
    have hm3 : ({ name := "UsPassportRecognizer" } : Recognizer) ∈
        (pre.filter (fun r => !(r.name == "UsSsnRecognizer"))).filter
          (fun r => !(r.name == "UsItinRecognizer")) :=
      List.mem_filter.mpr ⟨List.mem_filter.mpr ⟨h3, by decide⟩, by decide⟩
    have hs3 : remove_recognizer
        ((pre.filter (fun r => !(r.name == "UsSsnRecognizer"))).filter
          (fun r => !(r.name == "UsItinRecognizer")))
        "UsPassportRecognizer" =
        Except.ok
          (((pre.filter (fun r => !(r.name == "UsSsnRecognizer"))).filter
            (fun r => !(r.name == "UsItinRecognizer"))).filter
              (fun r => !(r.name == "UsPassportRecognizer"))) := by
      unfold remove_recognizer
      rw [if_pos]
      exact List.any_eq_true.mpr ⟨_, hm3, by decide⟩
    show Except.ok
        (tryRemoveDefaults remove_recognizer pre ++ DEFAULT_HIPAA_RECOGNIZERS ++ add) = _
    have hTRD : tryRemoveDefaults remove_recognizer pre =
        pre.filter (fun r => !(r.name == "UsSsnRecognizer" ||
          r.name == "UsItinRecognizer" || r.name == "UsPassportRecognizer")) := by
      simp only [tryRemoveDefaults, hs1, hs2, hs3]
      rw [List.filter_filter, List.filter_filter]
      apply List.filter_congr
      intro x _
      cases hx1 : x.name == "UsSsnRecognizer" <;>
        cases hx2 : x.name == "UsItinRecognizer" <;>
          cases hx3 : x.name == "UsPassportRecognizer" <;> simp [hx1, hx2, hx3]
    rw [hTRD]

/-- C8 witness: on a concrete predefined registry containing the three default
recognizers, construction succeeds and yields the filtered registry followed
by the override recognizers and the caller's extra recognizer. -/
theorem C8_removal_best_effort_witness :
    (({ name := "UsSsnRecognizer" } : Recognizer) ∈ preLoaded ∧
      ({ name := "UsItinRecognizer" } : Recognizer) ∈ preLoaded ∧
      ({ name := "UsPassportRecognizer" } : Recognizer) ∈ preLoaded) ∧
    build_analyzer (Except.ok preLoaded) remove_recognizer
        [{ name := "Custom MRN Recognizer" }] =
      Except.ok
        ((preLoaded.filter (fun r => !(r.name == "UsSsnRecognizer" ||
            r.name == "UsItinRecognizer" || r.name == "UsPassportRecognizer")))
          ++ DEFAULT_HIPAA_RECOGNIZERS ++ [{ name := "Custom MRN Recognizer" }]) :=
  ⟨⟨by decide, by decide, by decide⟩,
   (C8_removal_best_effort preLoaded [{ name := "Custom MRN Recognizer" }]
     (by decide) (by decide) (by decide)).2⟩

end Hipaa

namespace Hipaa

theorem filter_enumFrom_window : ∀ (text : List Char) (k a b : Nat),
    (((List.enumFrom k text).filter
        (fun p => decide (a ≤ p.1) && decide (p.1 < b))).map Prod.snd)
      = (text.take (b - k)).drop (a - k)
  | [], _, _, _ => by simp
  | c :: t, k, a, b => by
    rw [List.enumFrom_cons, List.filter_cons]
    by_cases hb : k < b
    · by_cases ha : a ≤ k
      · have h2 : a - k = 0 := by omega
        have h3 : a - (k + 1) = 0 := by omega
        have htake : (c :: t).take (b - k) = c :: t.take (b - (k + 1)) := by
          have hbk : b - k = (b - (k + 1)) + 1 := by omega
          rw [hbk, List.take_succ_cons]
        rw [if_pos (by simp [ha, hb]), List.map_cons,
            filter_enumFrom_window t (k + 1) a b, htake, h2, h3]
        simp
      · have h2 : a - k = (a - (k + 1)) + 1 := by omega
        have htake : (c :: t).take (b - k) = c :: t.take (b - (k + 1)) := by
          have hbk : b - k = (b - (k + 1)) + 1 := by omega
          rw [hbk, List.take_succ_cons]
        rw [if_neg (by simp [ha]), filter_enumFrom_window t (k + 1) a b, htake, h2,
            List.drop_succ_cons]
    · have h1 : b - k = 0 := by omega
      have h2 : b - (k + 1) = 0 := by omega
      rw [if_neg (by simp [hb]), filter_enumFrom_window t (k + 1) a b, h1, h2]
      simp

theorem filter_enumFrom_ge : ∀ (text : List Char) (k a : Nat),
    (((List.enumFrom k text).filter (fun p => decide (a ≤ p.1))).map Prod.snd)
      = text.drop (a - k)
  | [], _, _ => by simp
  | c :: t, k, a => by
    rw [List.enumFrom_cons, List.filter_cons]
    by_cases ha : a ≤ k
    · have h2 : a - k = 0 := by omega
      have h3 : a - (k + 1) = 0 := by omega
      rw [if_pos (by simp [ha]), List.map_cons, filter_enumFrom_ge t (k + 1) a, h2, h3]
      simp
    · have h2 : a - k = (a - (k + 1)) + 1 := by omega
      rw [if_neg (by simp [ha]), filter_enumFrom_ge t (k + 1) a, h2,
          List.drop_succ_cons]

theorem gapsOf_cons_inl (g : List Char) (segs : List (List Char ⊕ List Char)) :
    gapsOf (Sum.inl g :: segs) = g ++ gapsOf segs := by
  simp [gapsOf]

theorem gapsOf_cons_inr (p : List Char) (segs : List (List Char ⊕ List Char)) :
    gapsOf (Sum.inr p :: segs) = gapsOf segs := by
  simp [gapsOf]

theorem uncoveredFrom_nil (text : List Char) (pos : Nat) :
    uncoveredFrom text pos [] = text.drop pos := by
  unfold uncoveredFrom
  rw [List.filter_congr (fun p _ => by simp [coveredBy] :
    ∀ p ∈ text.enum, (decide (pos ≤ p.1) && !(coveredBy [] p.1)) = decide (pos ≤ p.1))]
  rw [List.enum_eq_enumFrom]
  simpa using filter_enumFrom_ge text 0 pos

theorem coveredBy_eq_false_of_lt (rest : List Detection) (i : Nat)
    (h : ∀ r ∈ rest, i < r.start) : coveredBy rest i = false := by
  induction rest with
  | nil => rfl
  | cons d rs ih =>
    have hd := h d (List.mem_cons_self d rs)
    rw [coveredBy, ih (fun r hr => h r (List.mem_cons_of_mem d hr))]
    have : decide (d.start ≤ i) = false := by
      simp only [decide_eq_false_iff_not]
      omega
    rw [this]
    rfl

end Hipaa

namespace Hipaa

theorem uncoveredFrom_cons (text : List Char) (pos : Nat) (d : Detection)
    (rest : List Detection) (hp : pos ≤ d.start) (hs : d.start ≤ d.stop)
    (h3 : ∀ r ∈ rest, d.stop ≤ r.start) :
    uncoveredFrom text pos (d :: rest) =
      sliceCh text pos d.start ++ uncoveredFrom text d.stop rest := by
  have hsplit : text.enum =
      List.enumFrom 0 (text.take d.stop) ++
        List.enumFrom (text.take d.stop).length (text.drop d.stop) := by
    rw [List.enum_eq_enumFrom]
    conv_lhs => rw [← List.take_append_drop d.stop text]
    rw [List.enumFrom_append]
    simp
  have f1 : ∀ p ∈ List.enumFrom 0 (text.take d.stop), p.1 < d.stop := by
    intro p hpm
    obtain ⟨x, y⟩ := p
    have h' := (List.mem_enumFrom hpm).2.1
    have hlen : (text.take d.stop).length ≤ d.stop := by
      rw [List.length_take]
      omega
    simp only at h'
    omega
  have f2 : ∀ p ∈ List.enumFrom (text.take d.stop).length (text.drop d.stop),
      d.stop ≤ p.1 := by
    intro p hpm
    obtain ⟨x, y⟩ := p
    have h' := (List.mem_enumFrom hpm).1
    have hne : text.drop d.stop ≠ [] := by
      intro hnil
      rw [hnil] at hpm
      exact absurd hpm (List.not_mem_nil _)
    have hlt : d.stop < text.length := by
      by_contra hge
      exact hne (List.drop_eq_nil_of_le (by omega))
    have hlen : (text.take d.stop).length = d.stop := by
      rw [List.length_take]
      omega
    simp only at h'
    omega
  have s1 : (List.enumFrom 0 (text.take d.stop)).filter
        (fun p => decide (pos ≤ p.1) && !(coveredBy (d :: rest) p.1)) =
      (List.enumFrom 0 (text.take d.stop)).filter
        (fun p => decide (pos ≤ p.1) && decide (p.1 < d.start)) := by
    apply List.filter_congr
    intro p hpm
    have hi := f1 p hpm
    have hcr : coveredBy rest p.1 = false :=
      coveredBy_eq_false_of_lt rest p.1 (fun r hr => by have := h3 r hr; omega)
    rw [coveredBy, hcr]
    have hlt : decide (p.1 < d.stop) = true := by
      simp only [decide_eq_true_eq]
      omega
    rw [hlt]
    by_cases hds : d.start ≤ p.1
    · have e1 : decide (d.start ≤ p.1) = true := by simp [hds]
      have e2 : decide (p.1 < d.start) = false := by
        simp only [decide_eq_false_iff_not]
        omega
      rw [e1, e2]
      simp
    · have e1 : decide (d.start ≤ p.1) = false := by simp [hds]
      have e2 : decide (p.1 < d.start) = true := by
        simp only [decide_eq_true_eq]
        omega
      rw [e1, e2]
      simp
  have s2 : (List.enumFrom (text.take d.stop).length (text.drop d.stop)).filter
        (fun p => decide (pos ≤ p.1) && !(coveredBy (d :: rest) p.1)) =
      (List.enumFrom (text.take d.stop).length (text.drop d.stop)).filter
        (fun p => decide (d.stop ≤ p.1) && !(coveredBy rest p.1)) := by
    apply List.filter_congr
    intro p hpm
    have hi := f2 p hpm
    rw [coveredBy]
    have e1 : decide (pos ≤ p.1) = true := by
      simp only [decide_eq_true_eq]
      omega
    have e2 : decide (p.1 < d.stop) = false := by
      simp only [decide_eq_false_iff_not]
      omega
    have e3 : decide (d.stop ≤ p.1) = true := by simp [hi]
    rw [e1, e2, e3]
    simp
  have s3 : (List.enumFrom (text.take d.stop).length (text.drop d.stop)).filter
        (fun p => decide (pos ≤ p.1) && decide (p.1 < d.start)) = [] := by
    rw [List.filter_eq_nil_iff]
    intro p hpm
    have hi := f2 p hpm
    simp only [Bool.and_eq_true, decide_eq_true_eq, not_and]
    intro _
    omega
  have s4 : (List.enumFrom 0 (text.take d.stop)).filter
        (fun p => decide (d.stop ≤ p.1) && !(coveredBy rest p.1)) = [] := by
    rw [List.filter_eq_nil_iff]
    intro p hpm
    have hi := f1 p hpm
    simp only [Bool.and_eq_true, decide_eq_true_eq, not_and]
    intro h
    omega
  have target1 : ((List.enumFrom 0 (text.take d.stop)).filter
        (fun p => decide (pos ≤ p.1) && decide (p.1 < d.start))).map Prod.snd =
      sliceCh text pos d.start := by
    have hA := filter_enumFrom_window text 0 pos d.start
    rw [show List.enumFrom 0 text = text.enum from List.enum_eq_enumFrom.symm,
        hsplit, List.filter_append, s3, List.append_nil] at hA
    simpa [sliceCh] using hA
  have target2 : ((List.enumFrom (text.take d.stop).length (text.drop d.stop)).filter
        (fun p => decide (d.stop ≤ p.1) && !(coveredBy rest p.1))).map Prod.snd =
      uncoveredFrom text d.stop rest := by
    unfold uncoveredFrom
    rw [hsplit, List.filter_append, s4, List.nil_append]
  have main : uncoveredFrom text pos (d :: rest) =
      ((List.enumFrom 0 (text.take d.stop)).filter
        (fun p => decide (pos ≤ p.1) && decide (p.1 < d.start))).map Prod.snd ++
      ((List.enumFrom (text.take d.stop).length (text.drop d.stop)).filter
        (fun p => decide (d.stop ≤ p.1) && !(coveredBy rest p.1))).map Prod.snd := by
    unfold uncoveredFrom
    rw [hsplit, List.filter_append, s1, s2, List.map_append]
  rw [main, target1, target2]

end Hipaa

namespace Hipaa

theorem chainValid_le_start : ∀ (l : List Detection) (pos : Nat),
    ChainValid pos l → ∀ r ∈ l, pos ≤ r.start
  | [], _, _, r, hr => absurd hr (List.not_mem_nil r)
  | d :: rest, pos, h, r, hr => by
    obtain ⟨hp, hs, hrest⟩ := h
    rcases List.mem_cons.mp hr with h | h
    · subst h
      exact hp
    · have := chainValid_le_start rest d.stop hrest r h
      omega

theorem gapsOf_maskSegments : ∀ (dets : List Detection)
    (ops : List (String × String)) (text : List Char) (pos : Nat),
    ChainValid pos dets →
    gapsOf (maskSegments ops text pos dets) = uncoveredFrom text pos dets
  | [], ops, text, pos, _ => by
    rw [maskSegments, uncoveredFrom_nil, gapsOf_cons_inl]
    simp [gapsOf]
  | d :: rest, ops, text, pos, h => by
    obtain ⟨hp, hs, hrest⟩ := h
    have h3 : ∀ r ∈ rest, d.stop ≤ r.start := chainValid_le_start rest d.stop hrest
    rw [maskSegments, gapsOf_cons_inl, gapsOf_cons_inr,
        gapsOf_maskSegments rest ops text d.stop hrest,
        uncoveredFrom_cons text pos d rest hp hs h3]

theorem countP_isRight_maskSegments : ∀ (dets : List Detection)
    (ops : List (String × String)) (text : List Char) (pos : Nat),
    (maskSegments ops text pos dets).countP (fun s => s.isRight) = dets.length
  | [], ops, text, pos => by
    rw [maskSegments]
    simp
  | d :: rest, ops, text, pos => by
    rw [maskSegments]
    simp [List.countP_cons, countP_isRight_maskSegments rest ops text d.stop]

/-- C5: for every text and every valid, start-ascending, non-overlapping
detection sequence, the anonymization splice renders the masked text from
alternating segments in which the verbatim (`Sum.inl`) segments are exactly
the characters at positions outside every detected span, in original order,
and the inserted placeholders (`Sum.inr`) number exactly the accepted
detections. -/
theorem C5_anonymize_verbatim_count (ops : List (String × String))
    (text : List Char) (dets : List Detection) (h : ChainValid 0 dets) :
    anonymize ops text dets = renderSegs (maskSegments ops text 0 dets) ∧
    gapsOf (maskSegments ops text 0 dets) =
      ((text.enum).filter (fun p => !(coveredBy dets p.1))).map Prod.snd ∧
    (maskSegments ops text 0 dets).countP (fun s => s.isRight) = dets.length := by
  refine ⟨rfl, ?_, countP_isRight_maskSegments dets ops text 0⟩
  rw [gapsOf_maskSegments dets ops text 0 h]
  unfold uncoveredFrom
  apply congrArg
  apply List.filter_congr
  intro p _
  simp

/-- C5 witness: one phone detection on the concrete text `"ab12cd"`: the
verbatim segments are the four characters outside `[2,4)` and there is exactly
one placeholder. -/
theorem C5_anonymize_verbatim_count_witness :
    ChainValid 0
      [{ entity_type := "PHONE_NUMBER", start := 2, stop := 4, score := mkRat 9 10 }] ∧
    (anonymize build_operators "ab12cd".toList
        [{ entity_type := "PHONE_NUMBER", start := 2, stop := 4, score := mkRat 9 10 }] =
      renderSegs (maskSegments build_operators "ab12cd".toList 0
        [{ entity_type := "PHONE_NUMBER", start := 2, stop := 4, score := mkRat 9 10 }]) ∧
    gapsOf (maskSegments build_operators "ab12cd".toList 0
        [{ entity_type := "PHONE_NUMBER", start := 2, stop := 4, score := mkRat 9 10 }]) =
      (("ab12cd".toList.enum).filter (fun p => !(coveredBy
        [{ entity_type := "PHONE_NUMBER", start := 2, stop := 4, score := mkRat 9 10 }]
        p.1))).map Prod.snd ∧
    (maskSegments build_operators "ab12cd".toList 0
        [{ entity_type := "PHONE_NUMBER", start := 2, stop := 4, score := mkRat 9 10 }]).countP
      (fun s => s.isRight) = 1) :=
  ⟨⟨by decide, by decide, trivial⟩,
   C5_anonymize_verbatim_count build_operators "ab12cd".toList
     [{ entity_type := "PHONE_NUMBER", start := 2, stop := 4, score := mkRat 9 10 }]
     ⟨by decide, by decide, trivial⟩⟩

end Hipaa
